import Mathlib

/-!
Verification of the rgi repository (interactive ripgrep/fzf wrapper).

This file shallowly embeds the pure, string-manipulating core of the
repository in Lean 4 and proves the specification claims about it:

* `src/rgi/fzf.py` — `FzfConfig`, `FzfCommandBuilder.build_args`,
  `FzfCommandBuilder.build_command_string`, `base_bindings`;
* `src/rgi/fzfui/app.py` — `Config`, `App.build_args`,
  `App.build_command_string`, `default_bindings`;
* `src/rgi/shell_scripts.py` — `oneline`, the shell-snippet templates and
  their builders, plus executable models of the snippet logic (glob-match
  exclusion filtering, reload-transform state reading);
* `src/rgi/cli.py` — the exit-code behaviour of `main`;
* the mode-toggle transforms (`inject_to_inline` / `eject_to_pinned`),
  whose script is not part of the sources and is therefore modelled from
  the specification text.

Python strings are modelled by `String`, Python lists by `List`, Python
dicts (which iterate in insertion order and are only iterated here) by
association lists `List (String × String)`, and `Optional[str]` by
`Option String`.  Python truthiness of a string `s` is `s ≠ ""`, and of an
`Optional[str]` it is "`some s` with `s ≠ ""`".
-/

/-! ## Generic string helpers (models of Python primitives) -/

/-- Model of Python `str.split()` (no separator): split on runs of
whitespace, discarding empty fields.  `acc` is the current word being
accumulated.  Lean's `Char.isWhitespace` (space, tab, CR, LF) stands in
for Python's whitespace class; the strings manipulated by this program
contain only spaces and newlines as whitespace. -/
def pySplitAux : List Char → List Char → List String
  | acc, [] => if acc = [] then [] else [String.mk acc]
  | acc, c :: cs =>
    if c.isWhitespace then
      if acc = [] then pySplitAux [] cs else String.mk acc :: pySplitAux [] cs
    else
      pySplitAux (acc ++ [c]) cs

/-- Model of Python `str.split()` on a `String`. -/
def pySplit (s : String) : List String := pySplitAux [] s.data

/-- Model of Python `" ".join(l)`. -/
def joinSpace : List String → String
  | [] => ""
  | [a] => a
  | a :: b :: rest => a ++ " " ++ joinSpace (b :: rest)

/-- Character-level view of `joinSpace`. -/
def jd : List String → List Char
  | [] => []
  | [a] => a.data
  | a :: b :: rest => a.data ++ ' ' :: jd (b :: rest)

theorem joinSpace_data (l : List String) : (joinSpace l).data = jd l := by
  match l with
  | [] => rfl
  | [a] => rfl
  | a :: b :: rest =>
    show ((a ++ " ") ++ joinSpace (b :: rest)).data = a.data ++ ' ' :: jd (b :: rest)
    rw [String.data_append, String.data_append, joinSpace_data (b :: rest)]
    simp

/-! ## Embedding of `src/rgi/fzf.py` -/

/-- Embeds the `Binding` dataclass of `fzf.py`. -/
structure Binding where
  key : String
  action : String
  description : String := ""
deriving DecidableEq

/-- Embeds the `FzfConfig` dataclass of `fzf.py`, defaults included.
`bindings` is an insertion-ordered association list standing in for the
Python dict (which `build_args` only iterates). -/
structure FzfConfig where
  height : String := "100%"
  layout : String := "reverse"
  prompt : String := " "
  info : String := "hidden"
  ansi : Bool := true
  disabled : Bool := false
  delimiter : String := ""
  initial_query : String := ""
  preview_command : Option String := none
  preview_window : String := "up,70%,~3,noinfo"
  history_file : Option String := none
  footer : String := ""
  no_border : Bool := true
  shell : String := "bash -c"
  bindings : List (String × String) := []
  extra_args : List String := []
deriving DecidableEq

/-- Python truthiness of an `Optional[str]` field. -/
def optTruthy : Option String → Bool
  | none => false
  | some s => s ≠ ""

namespace FzfCommandBuilder

/-- Embeds `FzfCommandBuilder.build_args` of `fzf.py`.  The second
argument is the builder's `_bindings` list accumulated by `add_binding`
(each `add_binding` call appends one `Binding`, so a sequence of calls is
exactly a `List Binding` in registration order).  Each `if cond:
args.append/extend(...)` statement of the Python is transcribed as an
append of a conditional segment. -/
def build_args (config : FzfConfig) (bindings : List Binding) : List String :=
  let args := ["fzf"]
  let args := args ++ ["--with-shell", config.shell]
  let args := args ++ ["--height", config.height]
  let args := args ++ ["--layout", config.layout]
  let args := args ++ ["--prompt", config.prompt]
  let args := args ++ ["--info", config.info]
  let args := args ++ (if config.ansi then ["--ansi"] else [])
  let args := args ++ (if config.disabled then ["--disabled"] else [])
  let args := args ++ (if config.delimiter ≠ "" then ["-d", config.delimiter] else [])
  let args := args ++ (if config.no_border then ["--no-border"] else [])
  let args := args ++ (if config.initial_query ≠ "" then ["--query", config.initial_query] else [])
  let args := args ++
    (if optTruthy config.preview_command then
      ["--preview", config.preview_command.getD "", "--preview-window", config.preview_window]
    else [])
  let args := args ++
    (if optTruthy config.history_file then ["--history", config.history_file.getD ""] else [])
  let args := args ++
    (if config.footer ≠ "" then ["--footer", config.footer] else ["--footer", ""])
  let args := args ++ (config.bindings.map (fun kv => ["--bind", kv.1 ++ ":" ++ kv.2])).flatten
  let args := args ++ (bindings.map (fun b => ["--bind", b.key ++ ":" ++ b.action])).flatten
  args ++ config.extra_args

end FzfCommandBuilder

/-- Embeds `base_bindings()` of `fzf.py` (dict literal in source order). -/
def base_bindings : List (String × String) :=
  [("ctrl-k", "kill-line"),
   ("alt-right", "forward-word"),
   ("alt-left", "backward-word"),
   ("alt-up", "prev-history"),
   ("alt-down", "next-history"),
   ("ctrl-p", "up"),
   ("ctrl-n", "down")]

/-! ## Embedding of `src/rgi/fzfui/app.py` -/

namespace Fzfui

/-- Embeds the `Action` dataclass of `fzfui/app.py`. -/
structure Action where
  key : String
  action : String
  description : String := ""
deriving DecidableEq

/-- Embeds the `Config` dataclass of `fzfui/app.py` (field `fzf_options`
is the counterpart of `FzfConfig.extra_args`). -/
structure Config where
  height : String := "100%"
  layout : String := "reverse"
  prompt : String := " "
  info : String := "hidden"
  ansi : Bool := true
  disabled : Bool := false
  delimiter : String := ""
  initial_query : String := ""
  preview_command : Option String := none
  preview_window : String := "up,70%,~3,noinfo"
  history_file : Option String := none
  footer : String := ""
  no_border : Bool := true
  shell : String := "bash -c"
  bindings : List (String × String) := []
  fzf_options : List String := []
deriving DecidableEq

namespace App

/-- Embeds `App.build_args` of `fzfui/app.py`; the second argument is the
`_actions` list accumulated by `App.action`. -/
def build_args (cfg : Config) (actions : List Action) : List String :=
  let args := ["fzf"]
  let args := args ++ ["--with-shell", cfg.shell]
  let args := args ++ ["--height", cfg.height]
  let args := args ++ ["--layout", cfg.layout]
  let args := args ++ ["--prompt", cfg.prompt]
  let args := args ++ ["--info", cfg.info]
  let args := args ++ (if cfg.ansi then ["--ansi"] else [])
  let args := args ++ (if cfg.disabled then ["--disabled"] else [])
  let args := args ++ (if cfg.delimiter ≠ "" then ["-d", cfg.delimiter] else [])
  let args := args ++ (if cfg.no_border then ["--no-border"] else [])
  let args := args ++ (if cfg.initial_query ≠ "" then ["--query", cfg.initial_query] else [])
  let args := args ++
    (if optTruthy cfg.preview_command then
      ["--preview", cfg.preview_command.getD "", "--preview-window", cfg.preview_window]
    else [])
  let args := args ++
    (if optTruthy cfg.history_file then ["--history", cfg.history_file.getD ""] else [])
  let args := args ++
    (if cfg.footer ≠ "" then ["--footer", cfg.footer] else ["--footer", ""])
  let args := args ++ (cfg.bindings.map (fun kv => ["--bind", kv.1 ++ ":" ++ kv.2])).flatten
  let args := args ++ (actions.map (fun a => ["--bind", a.key ++ ":" ++ a.action])).flatten
  args ++ cfg.fzf_options

end App

/-- Embeds `default_bindings()` of `fzfui/app.py`. -/
def default_bindings : List (String × String) :=
  [("ctrl-k", "kill-line"),
   ("alt-right", "forward-word"),
   ("alt-left", "backward-word"),
   ("alt-up", "prev-history"),
   ("alt-down", "next-history"),
   ("ctrl-p", "up"),
   ("ctrl-n", "down")]

end Fzfui

/-! ## Model of Python `shlex.quote` and a POSIX word splitter -/

/-- Characters Python's `shlex._find_unsafe` regex (with `re.ASCII`)
treats as safe: ASCII letters, digits, and `_ @ % + = : , . / -`. -/
def isSafeChar (c : Char) : Bool :=
  c.isAlphanum || c ∈ ['_', '@', '%', '+', '=', ':', ',', '.', '/', '-']

/-- Embeds Python `shlex.quote`: empty strings become `\x27\x27`, strings
of safe characters pass through, everything else is wrapped in single
quotes with each embedded single quote rendered as `\x27\x22\x27\x22\x27`. -/
def escChar (c : Char) : List Char :=
  if c = '\x27' then ['\x27', '\x22', '\x27', '\x22', '\x27'] else [c]

def shlexQuote (s : String) : String :=
  if s = "" then "\x27\x27"
  else if s.data.all isSafeChar then s
  else String.mk ('\x27' :: (s.data.map escChar).flatten ++ ['\x27'])

namespace FzfCommandBuilder

/-- Embeds `FzfCommandBuilder.build_command_string` of `fzf.py`:
`" ".join(shlex.quote(arg) for arg in self.build_args())`. -/
def build_command_string (config : FzfConfig) (bindings : List Binding) : String :=
  joinSpace ((build_args config bindings).map shlexQuote)

end FzfCommandBuilder

namespace Fzfui.App

/-- Embeds `App.build_command_string` of `fzfui/app.py`. -/
def build_command_string (cfg : Fzfui.Config) (actions : List Fzfui.Action) : String :=
  joinSpace ((build_args cfg actions).map shlexQuote)

end Fzfui.App

/-- Scanner mode of the POSIX word splitter: outside quotes, after a
backslash, inside single quotes, inside double quotes, after a backslash
inside double quotes. -/
inductive SpMode
  | norm
  | esc
  | inSQ
  | inDQ
  | escDQ
deriving DecidableEq

/-- State of the POSIX word splitter: current mode, characters of the
word being accumulated, whether a word has started, completed fields. -/
structure SpState where
  mode : SpMode
  cur : List Char
  started : Bool
  acc : List String
deriving DecidableEq

/-- One step of POSIX shell field splitting (`sh -c` tokenisation of a
command with quoting but no expansions): IFS whitespace delimits fields;
backslash escapes the next character (a backslash–newline pair vanishes);
single quotes protect everything up to the next single quote; inside
double quotes a backslash escapes `$`, backquote, `\x22` and backslash. -/
def spStep (s : SpState) (c : Char) : SpState :=
  match s.mode with
  | .norm =>
    if c.isWhitespace then
      if s.started then ⟨.norm, [], false, s.acc ++ [String.mk s.cur]⟩ else s
    else if c = '\x27' then ⟨.inSQ, s.cur, true, s.acc⟩
    else if c = '\x22' then ⟨.inDQ, s.cur, true, s.acc⟩
    else if c = '\\' then ⟨.esc, s.cur, s.started, s.acc⟩
    else ⟨.norm, s.cur ++ [c], true, s.acc⟩
  | .esc =>
    if c = '\n' then ⟨.norm, s.cur, s.started, s.acc⟩
    else ⟨.norm, s.cur ++ [c], true, s.acc⟩
  | .inSQ =>
    if c = '\x27' then ⟨.norm, s.cur, true, s.acc⟩
    else ⟨.inSQ, s.cur ++ [c], true, s.acc⟩
  | .inDQ =>
    if c = '\x22' then ⟨.norm, s.cur, true, s.acc⟩
    else if c = '\\' then ⟨.escDQ, s.cur, true, s.acc⟩
    else ⟨.inDQ, s.cur ++ [c], true, s.acc⟩
  | .escDQ =>
    if c = '$' ∨ c = '\x60' ∨ c = '\x22' ∨ c = '\\' then ⟨.inDQ, s.cur ++ [c], true, s.acc⟩
    else if c = '\n' then ⟨.inDQ, s.cur, true, s.acc⟩
    else ⟨.inDQ, s.cur ++ ['\\', c], true, s.acc⟩

/-- Runs the splitter over a character list. -/
def spRun (s : SpState) (cs : List Char) : SpState := cs.foldl spStep s

/-- Final state of the splitter: outside quotes the accumulated fields
(plus the pending word, if one started) are returned; a string ending
inside a quote or after a dangling backslash is an incomplete shell
word, which `sh -c` would reject or continue reading — `none`. -/
def finishSplit (st : SpState) : Option (List String) :=
  match st.mode with
  | .norm => some (if st.started then st.acc ++ [String.mk st.cur] else st.acc)
  | _ => none

/-- POSIX shell word splitting of a whole string. -/
def posixSplit (s : String) : Option (List String) :=
  finishSplit (spRun ⟨.norm, [], false, []⟩ s.data)

example : posixSplit "a b" = some ["a", "b"] := by decide
example : posixSplit "\x27a b\x27 c" = some ["a b", "c"] := by decide
example : posixSplit "\x27\x27 x" = some ["", "x"] := by decide
example : posixSplit "\x27it\x27\x22\x27\x22\x27s\x27" = some ["it\x27s"] := by decide
example : shlexQuote "ab" = "ab" := by decide
example : shlexQuote "" = "\x27\x27" := by decide
example : shlexQuote "a b" = "\x27a b\x27" := by decide
example : shlexQuote "a\x27b" = "\x27a\x27\x22\x27\x22\x27b\x27" := by decide

/-! ## Embedding of `src/rgi/shell_scripts.py` -/

/-- Embeds `oneline` of `shell_scripts.py`:
`" ".join(script.split())`. -/
def oneline (script : String) : String := joinSpace (pySplit script)

/-- Embeds the `GLOB_EXPAND` template string of `shell_scripts.py`
verbatim (braces written `\x7b`/`\x7d`, single quotes `\x27`). -/
def GLOB_EXPAND : String :=
  "\n    if [[ ! \"$cmd\" =~ [[:space:]]$ ]]; then\n        last=\"$\x7bcmd##* \x7d\";\n        if [[ \"$last\" != -* && ! -e \"$last\" && -n \"$last\" ]]; then\n            shopt -s nullglob;\n            matches=( $\x7blast\x7d* );\n            shopt -u nullglob;\n            if [[ $\x7b#matches[@]\x7d -gt 0 ]]; then\n                all_opts=\"$pinned_opts $cmd\";\n                if echo \"$all_opts\" | grep -qE \"\x27![^\x27]*\x27\"; then\n                    filtered=();\n                    for m in \"$\x7bmatches[@]\x7d\"; do\n                        excluded=false;\n                        while IFS= read -r pattern; do\n                            if [[ -n \"$pattern\" && \"$(basename \"$m\")\" == $pattern ]]; then\n                                excluded=true;\n                                break;\n                            fi;\n                        done < <(echo \"$all_opts\" | grep -oE \"\x27![^\x27]*\x27\" | sed \"s/^\x27!//;s/\x27$//\");\n                        if [[ \"$excluded\" == false ]]; then\n                            filtered+=(\"$m\");\n                        fi;\n                    done;\n                    matches=(\"$\x7bfiltered[@]\x7d\");\n                fi;\n                if [[ $\x7b#matches[@]\x7d -gt 0 ]]; then\n                    cmd=\"$\x7bcmd% *\x7d $\x7bmatches[*]\x7d\";\n                fi;\n            fi;\n        fi;\n    fi;\n"

/-- Embeds `RELOAD_TRANSFORM.format(glob_expand=..., implicit_opts=...,
delta=...)`: the template string of `shell_scripts.py` with Python
`str.format` applied (`\x7b\x7b`/`\x7d\x7d` unescaped, the three slots
substituted; `implicit_opts` occurs twice). -/
def RELOAD_TRANSFORM_fmt (glob_expand implicit_opts delta : String) : String :=
  "\n    state_file=\"$RGI_STATE_FILE\";\n    pinned_opts=\"\";\n    if [[ -f \"$state_file\" ]]; then\n        state=$(cat \"$state_file\");\n        mode=\"$\x7bstate%%|*\x7d\";\n        if [[ \"$mode\" == \"pinned\" ]]; then\n            pinned_opts=\"$\x7bstate#*|\x7d\";\n        fi;\n    fi;\n    cmd=\"$FZF_QUERY\";\n    "
  ++ glob_expand
  ++ "\n    if [[ \"$cmd\" =~ ^rg ]]; then\n        cmd=\"$\x7bcmd#rg\x7d\";\n        if [[ -n \"$pinned_opts\" ]]; then\n            cmd=\"rg $pinned_opts "
  ++ implicit_opts
  ++ "$cmd\";\n        else\n            cmd=\"rg "
  ++ implicit_opts
  ++ "$cmd\";\n        fi;\n    fi;\n    printf \x27reload:RIPGREP_CONFIG_PATH= eval %q 2>/dev/null | "
  ++ delta
  ++ "\x27 \"$cmd\"\n"

/-- Embeds `START_RELOAD_PINNED.format(...)` of `shell_scripts.py`
(`config_args` occurs twice). -/
def START_RELOAD_PINNED_fmt (glob_expand config_args implicit_opts delta : String) : String :=
  "\n    pinned_opts=\""
  ++ config_args
  ++ "\";\n    cmd=\x7bq\x7d;\n    "
  ++ glob_expand
  ++ "\n    if [[ \"$cmd\" =~ ^rg ]]; then\n        cmd=\"$\x7bcmd#rg\x7d\";\n        cmd=\"rg "
  ++ config_args
  ++ " "
  ++ implicit_opts
  ++ "$cmd\";\n    fi;\n    RIPGREP_CONFIG_PATH= eval \"$cmd\" 2>/dev/null | "
  ++ delta
  ++ "\n"

/-- Embeds `START_RELOAD_INLINE.format(...)` of `shell_scripts.py`. -/
def START_RELOAD_INLINE_fmt (glob_expand implicit_opts delta : String) : String :=
  "\n    pinned_opts=\"\";\n    cmd=\x7bq\x7d;\n    "
  ++ glob_expand
  ++ "\n    if [[ \"$cmd\" =~ ^rg ]]; then\n        cmd=\"$\x7bcmd#rg\x7d\";\n        cmd=\"rg "
  ++ implicit_opts
  ++ "$cmd\";\n    fi;\n    RIPGREP_CONFIG_PATH= eval \"$cmd\" 2>/dev/null | "
  ++ delta
  ++ "\n"

/-- Embeds the `TAB_COMPLETE` raw template string of `shell_scripts.py`
verbatim (it is an `r\x22\x22\x22` raw string, so `\\n` and `\\0` are the
two-character sequences backslash–n and backslash–0). -/
def TAB_COMPLETE : String :=
  "\n    q=\"$FZF_QUERY\";\n    last=\"$\x7bq##* \x7d\";\n    [[ \"$last\" == -* || -z \"$last\" ]] && \x7b echo \"$q\"; exit; \x7d;\n    IFS=$\x27\\n\x27 read -d \x27\x27 -ra matches < <(compgen -f -- \"$last\" 2>/dev/null; printf \x27\\0\x27);\n    if [[ $\x7b#matches[@]\x7d -eq 1 ]]; then\n        m=\"$\x7bmatches[0]\x7d\";\n        [[ -d \"$m\" ]] && m=\"$m/\";\n        echo \"$\x7bq% *\x7d $m\";\n    elif [[ $\x7b#matches[@]\x7d -gt 1 ]]; then\n        pfx=\"$\x7bmatches[0]\x7d\";\n        for m in \"$\x7bmatches[@]\x7d\"; do\n            while [[ \"$\x7bm:0:$\x7b#pfx\x7d\x7d\" != \"$pfx\" && -n \"$pfx\" ]]; do\n                pfx=\"$\x7bpfx:0:-1\x7d\";\n            done;\n        done;\n        [[ \"$pfx\" != \"$last\" ]] && echo \"$\x7bq% *\x7d $pfx\" || echo \"$q\";\n    else\n        echo \"$q\";\n    fi\n"

/-- Embeds `build_reload_transform` of `shell_scripts.py`. -/
def build_reload_transform (implicit_opts delta : String) : String :=
  oneline (RELOAD_TRANSFORM_fmt (oneline GLOB_EXPAND) implicit_opts delta)

/-- Embeds `build_start_reload_pinned` of `shell_scripts.py`. -/
def build_start_reload_pinned (config_args implicit_opts delta : String) : String :=
  oneline (START_RELOAD_PINNED_fmt (oneline GLOB_EXPAND) config_args implicit_opts delta)

/-- Embeds `build_start_reload_inline` of `shell_scripts.py`. -/
def build_start_reload_inline (implicit_opts delta : String) : String :=
  oneline (START_RELOAD_INLINE_fmt (oneline GLOB_EXPAND) implicit_opts delta)

/-- Embeds `build_tab_complete` of `shell_scripts.py`. -/
def build_tab_complete : String := oneline TAB_COMPLETE

/-! ## Executable model of the `GLOB_EXPAND` snippet's filtering logic

The bash snippet extracts exclusion patterns from `"$pinned_opts $cmd"`
with `grep -oE "\x27![^\x27]*\x27" | sed "s/^\x27!//;s/\x27$//"`, drops every
glob match whose `basename` matches one of them (bash `[[ == ]]` pattern
matching), and substitutes the surviving matches for the last word of the
command only when at least one survives. -/

/-- Scanner state for `extractExclAux`: outside any candidate match,
just past an opening single quote, or capturing a pattern body begun by
a quote-bang. -/
inductive ExtractState
  | outside
  | afterQuote
  | capture (pat : List Char)
deriving DecidableEq

/-- Model of `grep -oE "\x27![^\x27]*\x27" | sed "s/^\x27!//;s/\x27$//"`
as a left-to-right scanner: emit the body of every non-overlapping
leftmost occurrence of a single-quoted token that starts with `!`
(matching grep's leftmost, non-overlapping semantics). -/
def extractExclAux : ExtractState → List Char → List String
  | _, [] => []
  | .outside, c :: cs =>
    extractExclAux (if c = '\x27' then .afterQuote else .outside) cs
  | .afterQuote, c :: cs =>
    if c = '!' then extractExclAux (.capture []) cs
    else extractExclAux (if c = '\x27' then .afterQuote else .outside) cs
  | .capture pat, c :: cs =>
    if c = '\x27' then String.mk pat :: extractExclAux .outside cs
    else extractExclAux (.capture (pat ++ [c])) cs

/-- Exclusion patterns extracted from the combined options string. -/
def extractExclusions (l : List Char) : List String := extractExclAux .outside l

/-- Model of the `basename` command: strip trailing slashes, then keep
the part after the last slash (the whole string when there is none). -/
def basename (s : String) : String :=
  let cs := (s.data.reverse.dropWhile (fun c => c = '/')).reverse
  if cs = [] then (if s.data = [] then "" else "/")
  else String.mk ((cs.reverse.takeWhile (fun c => c ≠ '/')).reverse)

/-- Model of bash `[[ string == pattern ]]` glob matching with `*`, `?`
and literal characters (the exclusion patterns this system builds use
only these; bracket classes are not modelled).  The `fuel` argument only
drives structural recursion: every recursive call strictly decreases
`pattern.length + string.length`, so `globMatch` below always supplies
enough fuel for the answer to be fuel-independent. -/
def globMatchFuel : Nat → List Char → List Char → Bool
  | 0, _, _ => false
  | _ + 1, [], [] => true
  | fuel + 1, '*' :: ps, [] => globMatchFuel fuel ps []
  | _ + 1, _ :: _, [] => false
  | _ + 1, [], _ :: _ => false
  | fuel + 1, '*' :: ps, c :: cs =>
    globMatchFuel fuel ps (c :: cs) || globMatchFuel fuel ('*' :: ps) cs
  | fuel + 1, '?' :: ps, _ :: cs => globMatchFuel fuel ps cs
  | fuel + 1, p :: ps, c :: cs => (p = c) && globMatchFuel fuel ps cs

/-- Bash glob matching of a string against a pattern. -/
def globMatch (pat s : List Char) : Bool :=
  globMatchFuel (pat.length + s.length + 1) pat s

/-- Model of the per-match exclusion test of `GLOB_EXPAND`: the match is
excluded when some non-empty extracted pattern glob-matches its
basename. -/
def isExcluded (all_opts m : String) : Bool :=
  (extractExclusions all_opts.data).any (fun p => p ≠ "" && globMatch p.data (basename m).data)

/-- Model of the `filtered` array computed by `GLOB_EXPAND` (`ms` stands
for the bash array `matches`, whose name Lean reserves). -/
def filteredMatches (all_opts : String) (ms : List String) : List String :=
  ms.filter (fun m => !isExcluded all_opts m)

/-- Model of bash `$\x7bcmd% *\x7d`: remove the last space and everything
after it (unchanged when the string has no space). -/
def stripLastWord (cmd : String) : String :=
  match cmd.data.reverse.dropWhile (fun c => c ≠ ' ') with
  | [] => cmd
  | _ :: before => String.mk before.reverse

/-- Model of the substitution stage of `GLOB_EXPAND` (the body of the
`if [[ $\x7b#matches[@]\x7d -gt 0 ]]` block), taking the glob candidate
matches of `$\x7blast\x7d*` as input: build `all_opts`, filter when any
exclusion pattern is present, and replace the last word only when at
least one match survives. -/
def globExpandSubst (pinned_opts cmd : String) (ms : List String) : String :=
  if ms.length > 0 then
    let all_opts := pinned_opts ++ " " ++ cmd
    let kept :=
      if (extractExclusions all_opts.data).isEmpty then ms
      else filteredMatches all_opts ms
    if kept.length > 0 then stripLastWord cmd ++ " " ++ joinSpace kept else cmd
  else cmd

example : extractExclusions "-g \x27!*.test\x27 --json".data = ["*.test"] := by decide
example : basename "a/b/c.py" = "c.py" := by decide
example : globMatch "*.test".data "code.test".data = true := by decide
example : globMatch "*.test".data "code.py".data = false := by decide
example :
    filteredMatches "-g \x27!*.test\x27 rg code" ["code.py", "code.test"] = ["code.py"] := by
  decide

/-! ## Executable model of the `RELOAD_TRANSFORM` snippet's state reading -/

/-- Model of bash `$(cat file)`: command substitution strips trailing
newlines from the file content. -/
def stripTrailingNewlines (s : String) : String :=
  String.mk ((s.data.reverse.dropWhile (fun c => c = '\n')).reverse)

/-- Model of bash `$\x7bstate%%|*\x7d`: the prefix before the first `|`
(the whole string when there is no `|`, since the pattern then fails to
match). -/
def beforeFirstBar (s : String) : String :=
  String.mk (s.data.takeWhile (fun c => c ≠ '|'))

/-- Model of bash `$\x7bstate#*|\x7d`: the suffix after the first `|`,
or the whole string unchanged when there is no `|`. -/
def afterFirstBar (s : String) : String :=
  match s.data.dropWhile (fun c => c ≠ '|') with
  | [] => s
  | _ :: t => String.mk t

/-- Model of the state-reading prologue of `RELOAD_TRANSFORM`: input is
the state-file content (`none` when the file named by `RGI_STATE_FILE`
is missing), output is the `pinned_opts` variable. -/
def readPinnedOpts : Option String → String
  | none => ""
  | some content =>
    let state := stripTrailingNewlines content
    if beforeFirstBar state = "pinned" then afterFirstBar state else ""

/-- Model of bash `[[ "$cmd" =~ ^rg ]]`. -/
def startsWithRg (cmd : String) : Bool :=
  match cmd.data with
  | 'r' :: 'g' :: _ => true
  | _ => false

/-- Model of the command-rebuilding epilogue of `RELOAD_TRANSFORM`:
`cmd=$\x7bcmd#rg\x7d` then prefix `rg`, the pinned options (only when
non-empty) and the implicit options. -/
def rebuildCmd (pinned_opts implicit_opts cmd : String) : String :=
  if startsWithRg cmd then
    let rest := String.mk (cmd.data.drop 2)
    if pinned_opts ≠ "" then "rg " ++ pinned_opts ++ " " ++ implicit_opts ++ rest
    else "rg " ++ implicit_opts ++ rest
  else cmd

example : readPinnedOpts none = "" := by decide
example : readPinnedOpts (some "pinned|-g \x27!*.test\x27\n") = "-g \x27!*.test\x27" := by
  decide
example : readPinnedOpts (some "garbage") = "" := by decide
example : readPinnedOpts (some "inline|") = "" := by decide
example : rebuildCmd "" "--json " "rg foo ." = "rg --json  foo ." := by decide

/-! ## Embedding of `src/rgi/cli.py` -/

/-- Outcome of the `subprocess.run` call in `cli.main`: the wrapped
process completed with an exit code, the user pressed Ctrl-C
(`KeyboardInterrupt`), or some other exception escaped. -/
inductive RunOutcome
  | completed (returncode : Int)
  | interrupted
  | raised (msg : String)
deriving DecidableEq

/-- Observable result of `cli.main`: the status passed to `sys.exit` and
whether an error message was printed to standard error. -/
structure ExitResult where
  code : Int
  wroteStderr : Bool
deriving DecidableEq

/-- Embeds `main` of `cli.py`: a missing bundled script is reported to
stderr with exit status 1; otherwise the script is executed and its
return code forwarded, with 130 on `KeyboardInterrupt` and 1 (plus a
stderr report) on any other exception. -/
def cliMain (scriptExists : Bool) (outcome : RunOutcome) : ExitResult :=
  if !scriptExists then ⟨1, true⟩
  else
    match outcome with
    | .completed c => ⟨c, false⟩
    | .interrupted => ⟨130, false⟩
    | .raised _ => ⟨1, true⟩

/-! ## Model of the mode-toggle transforms

The `rgi-toggle-pinned` script itself is not among the repository
sources (only `tests/test_rgi.py` exercises it), so the two transforms
are modelled from the specification text. -/

/-- Modelled from the spec: a token is an option flag when it starts
with `-` (spec 4.3: "extracted flag tokens"). -/
def isFlagToken (t : String) : Bool :=
  match t.data with
  | '-' :: _ => true
  | _ => false

/-- Modelled from the spec: short options that take a separate value
token; the specification names `-g <value>` as the multi-token option
that must travel as one unit. -/
def takesValue (t : String) : Bool := t = "-g"

/-- Modelled from the spec (4.3, eject-to-pinned): partition the tokens
after the command token into extracted flags and remaining query tokens,
keeping a value-taking short option together with its following value
token. -/
def extractFlags : List String → List String × List String
  | [] => ([], [])
  | [t] => if isFlagToken t then ([t], []) else ([], [t])
  | t :: v :: ts =>
    if isFlagToken t then
      if takesValue t && !isFlagToken v then
        let fk := extractFlags ts
        (t :: v :: fk.1, fk.2)
      else
        let fk := extractFlags (v :: ts)
        (t :: fk.1, fk.2)
    else
      let fk := extractFlags (v :: ts)
      (fk.1, t :: fk.2)

/-- Modelled from the spec (4.3): `inject-to-inline(header, query)`
returns an empty header and the query with the header flags spliced in
immediately after the command token. This models the `inject_to_inline`
function of the bundled `rgi-toggle-pinned` script, which is absent from
the sources. -/
def inject_to_inline (header query : String) : String × String :=
  match pySplit query with
  | [] => ("", query)
  | cmd :: rest => ("", joinSpace (cmd :: (pySplit header ++ rest)))

/-- Modelled from the spec (4.3): `eject-to-pinned(query)` returns the
extracted flag tokens (multi-token options kept whole) as the new header
and the query with those tokens removed. This models the
`eject_to_pinned` function of the bundled `rgi-toggle-pinned` script,
which is absent from the sources. -/
def eject_to_pinned (query : String) : String × String :=
  match pySplit query with
  | [] => ("", query)
  | cmd :: rest =>
    let fk := extractFlags rest
    (joinSpace fk.1, joinSpace (cmd :: fk.2))

example :
    inject_to_inline "--smart-case --hidden" "rg test ." =
      ("", "rg --smart-case --hidden test .") := by decide
example :
    eject_to_pinned "rg --smart-case --hidden test ." =
      ("--smart-case --hidden", "rg test .") := by decide
example :
    eject_to_pinned "rg --smart-case -g \x27*.py\x27 test src/" =
      ("--smart-case -g \x27*.py\x27", "rg test src/") := by decide

/-! ## Flat characterisation of `build_args` (shared helper) -/

/-- Helper: `FzfCommandBuilder.build_args` written as one concatenation
of segments in emission order (the two `--footer` branches collapse to
`["--footer", config.footer]`). -/
theorem build_args_eq (c : FzfConfig) (bs : List Binding) :
    FzfCommandBuilder.build_args c bs =
      ["fzf", "--with-shell", c.shell, "--height", c.height, "--layout", c.layout,
       "--prompt", c.prompt, "--info", c.info]
      ++ (if c.ansi then ["--ansi"] else [])
      ++ (if c.disabled then ["--disabled"] else [])
      ++ (if c.delimiter ≠ "" then ["-d", c.delimiter] else [])
      ++ (if c.no_border then ["--no-border"] else [])
      ++ (if c.initial_query ≠ "" then ["--query", c.initial_query] else [])
      ++ (if optTruthy c.preview_command then
            ["--preview", c.preview_command.getD "", "--preview-window", c.preview_window]
          else [])
      ++ (if optTruthy c.history_file then ["--history", c.history_file.getD ""] else [])
      ++ ["--footer", c.footer]
      ++ (c.bindings.map (fun kv => ["--bind", kv.1 ++ ":" ++ kv.2])).flatten
      ++ (bs.map (fun b => ["--bind", b.key ++ ":" ++ b.action])).flatten
      ++ c.extra_args := by
  simp only [FzfCommandBuilder.build_args]
  by_cases h : c.footer = "" <;> simp [h, List.append_assoc]

/-- Claim C1 (corrected), counterexample: with the wholly default
configuration and no registered bindings, `build_args` emits no
`--query` token at all, whereas the claim's fixed order includes
`--query` with the (empty) initial query unconditionally. -/
theorem claim_C1_counterexample :
    FzfCommandBuilder.build_args {} [] =
      ["fzf", "--with-shell", "bash -c", "--height", "100%", "--layout", "reverse",
       "--prompt", " ", "--info", "hidden", "--ansi", "--no-border", "--footer", ""] ∧
    "--query" ∉ FzfCommandBuilder.build_args {} [] := by decide

/-- Claim C1 (amended): `build_args` returns, in this fixed order, the
`fzf` token; `--with-shell` with the shell; `--height`, `--layout`,
`--prompt`, `--info` with their values; `--ansi`, `--disabled` when
true; `-d` with the delimiter when non-empty; `--no-border` when true;
`--query` with the initial query only when that query is non-empty;
`--preview`/`--preview-window` only when a non-empty preview command is
set; `--history` only when a non-empty history file is set; `--footer`
always, with the configured (possibly empty) footer; one `--bind` per
static-map entry in map order, then one per registered binding in
registration order; then the extra raw flags verbatim. -/
theorem claim_C1 (c : FzfConfig) (bs : List Binding) :
    FzfCommandBuilder.build_args c bs =
      ["fzf", "--with-shell", c.shell, "--height", c.height, "--layout", c.layout,
       "--prompt", c.prompt, "--info", c.info]
      ++ (if c.ansi then ["--ansi"] else [])
      ++ (if c.disabled then ["--disabled"] else [])
      ++ (if c.delimiter ≠ "" then ["-d", c.delimiter] else [])
      ++ (if c.no_border then ["--no-border"] else [])
      ++ (if c.initial_query ≠ "" then ["--query", c.initial_query] else [])
      ++ (if optTruthy c.preview_command then
            ["--preview", c.preview_command.getD "", "--preview-window", c.preview_window]
          else [])
      ++ (if optTruthy c.history_file then ["--history", c.history_file.getD ""] else [])
      ++ ["--footer", c.footer]
      ++ (c.bindings.map (fun kv => ["--bind", kv.1 ++ ":" ++ kv.2])).flatten
      ++ (bs.map (fun b => ["--bind", b.key ++ ":" ++ b.action])).flatten
      ++ c.extra_args :=
  build_args_eq c bs

/-! ## Claim C10: the two builder implementations agree -/

/-- Field-for-field translation of an `FzfConfig` (`fzf.py`) into a
`Config` (`fzfui/app.py`); `extra_args` corresponds to `fzf_options`. -/
def configOfFzf (c : FzfConfig) : Fzfui.Config :=
  ⟨c.height, c.layout, c.prompt, c.info, c.ansi, c.disabled, c.delimiter, c.initial_query,
   c.preview_command, c.preview_window, c.history_file, c.footer, c.no_border, c.shell,
   c.bindings, c.extra_args⟩

/-- Field-for-field translation of a `Binding` into an `Action`. -/
def actionOfBinding (b : Binding) : Fzfui.Action := ⟨b.key, b.action, b.description⟩

/-- Claim C10 (confirmed): on identical field values and identical
binding sequences, `App.build_args` and `FzfCommandBuilder.build_args`
return identical argument lists, their `build_command_string` results
are identical, and `default_bindings()` equals `base_bindings()`. -/
theorem claim_C10 (c : FzfConfig) (bs : List Binding) :
    Fzfui.App.build_args (configOfFzf c) (bs.map actionOfBinding) =
      FzfCommandBuilder.build_args c bs ∧
    Fzfui.App.build_command_string (configOfFzf c) (bs.map actionOfBinding) =
      FzfCommandBuilder.build_command_string c bs ∧
    Fzfui.default_bindings = base_bindings := by
  have hargs : Fzfui.App.build_args (configOfFzf c) (bs.map actionOfBinding) =
      FzfCommandBuilder.build_args c bs := by
    simp only [Fzfui.App.build_args, FzfCommandBuilder.build_args, configOfFzf, List.map_map]
    rfl
  refine ⟨hargs, ?_, rfl⟩
  simp only [Fzfui.App.build_command_string, FzfCommandBuilder.build_command_string, hargs]

/-! ## Claim C6: CLI exit behaviour -/

/-- Claim C6 (confirmed): when the bundled script is missing `main`
reports to stderr and exits with the non-zero status 1, whatever the
subprocess would have done; otherwise it forwards the wrapped process's
exit code; on keyboard interrupt it exits with status 130. -/
theorem claim_C6 :
    (∀ o : RunOutcome, cliMain false o = ⟨1, true⟩ ∧ (1 : Int) ≠ 0) ∧
    (∀ code : Int, cliMain true (.completed code) = ⟨code, false⟩) ∧
    cliMain true .interrupted = ⟨130, false⟩ := by
  refine ⟨fun o => ⟨rfl, by decide⟩, fun code => rfl, rfl⟩

/-! ## Claim C5: map-then-list binding emission -/

/-- Claim C5 (confirmed): `build_args` emits one `--bind` entry per
static-map binding followed by one per registered binding, appended
after the flag section (which is exactly the output for the same
configuration with no bindings or extra args) and before the extra raw
flags; in particular a key present in both sources yields two distinct
`--bind` entries with the map one first. -/
theorem claim_C5 :
    (∀ (c : FzfConfig) (bs : List Binding),
      FzfCommandBuilder.build_args c bs =
        FzfCommandBuilder.build_args { c with bindings := [], extra_args := [] } []
        ++ (c.bindings.map (fun kv => ["--bind", kv.1 ++ ":" ++ kv.2])).flatten
        ++ (bs.map (fun b => ["--bind", b.key ++ ":" ++ b.action])).flatten
        ++ c.extra_args) ∧
    FzfCommandBuilder.build_args { bindings := [("ctrl-x", "map-action")] }
        [⟨"ctrl-x", "list-action", ""⟩] =
      ["fzf", "--with-shell", "bash -c", "--height", "100%", "--layout", "reverse",
       "--prompt", " ", "--info", "hidden", "--ansi", "--no-border", "--footer", "",
       "--bind", "ctrl-x:map-action", "--bind", "ctrl-x:list-action"] := by
  constructor
  · intro c bs
    rw [build_args_eq, build_args_eq]
    simp [List.append_assoc]
  · decide

/-! ## Claim C3: head token, footer uniqueness, preview omission -/

/-- Value-position collision freedom: none of the configured string
values equals the given token, and the extra raw flags do not contain
it.  (Binding keys and actions need no constraint: every emitted `--bind`
payload contains a colon.) -/
def noTokenCollision (c : FzfConfig) (tok : String) : Prop :=
  c.shell ≠ tok ∧ c.height ≠ tok ∧ c.layout ≠ tok ∧ c.prompt ≠ tok ∧ c.info ≠ tok ∧
  c.delimiter ≠ tok ∧ c.initial_query ≠ tok ∧ c.preview_command.getD "" ≠ tok ∧
  c.preview_window ≠ tok ∧ c.history_file.getD "" ≠ tok ∧ c.footer ≠ tok ∧
  tok ∉ c.extra_args

instance (c : FzfConfig) (tok : String) : Decidable (noTokenCollision c tok) := by
  unfold noTokenCollision; infer_instance

/-- Helper: a string containing a colon is never equal to a
colon-free token. -/
theorem bind_payload_ne (k a tok : String) (h : ':' ∉ tok.data) :
    k ++ ":" ++ a ≠ tok := by
  intro heq
  apply h
  rw [← heq]
  simp [String.data_append]

/-- Helper: a colon-free token other than `--bind` never occurs among
the emitted `--bind` pairs of an association list. -/
theorem count_bind_flatten_assoc (tok : String) (hne : tok ≠ "--bind") (hc : ':' ∉ tok.data)
    (l : List (String × String)) :
    List.count tok (l.map (fun kv => ["--bind", kv.1 ++ ":" ++ kv.2])).flatten = 0 := by
  induction l with
  | nil => rfl
  | cons kv rest ih =>
    simp only [List.map_cons, List.flatten_cons, List.count_append, ih]
    have h1 := bind_payload_ne kv.1 kv.2 tok hc
    simp [List.count_cons, Ne.symm hne]
    exact h1

/-- Helper: the same for a list of `Binding`s. -/
theorem count_bind_flatten_binding (tok : String) (hne : tok ≠ "--bind") (hc : ':' ∉ tok.data)
    (l : List Binding) :
    List.count tok (l.map (fun b => ["--bind", b.key ++ ":" ++ b.action])).flatten = 0 := by
  induction l with
  | nil => rfl
  | cons b rest ih =>
    simp only [List.map_cons, List.flatten_cons, List.count_append, ih]
    have h1 := bind_payload_ne b.key b.action tok hc
    simp [List.count_cons, Ne.symm hne]
    exact h1

/-- Helper: a token distinct from every flag literal, colon-free, not
colliding with any configured value, never occurs in `build_args` when
no preview is emitted. -/
theorem count_flags_zero (c : FzfConfig) (bs : List Binding) (tok : String)
    (hlit : tok ≠ "fzf" ∧ tok ≠ "--with-shell" ∧ tok ≠ "--height" ∧ tok ≠ "--layout" ∧
      tok ≠ "--prompt" ∧ tok ≠ "--info" ∧ tok ≠ "--ansi" ∧ tok ≠ "--disabled" ∧
      tok ≠ "-d" ∧ tok ≠ "--no-border" ∧ tok ≠ "--query" ∧ tok ≠ "--history" ∧
      tok ≠ "--footer" ∧ tok ≠ "--bind" ∧ ':' ∉ tok.data)
    (hcol : noTokenCollision c tok)
    (hprev : optTruthy c.preview_command = false) :
    List.count tok (FzfCommandBuilder.build_args c bs) = 0 := by
  obtain ⟨l1, l2, l3, l4, l5, l6, l7, l8, l9, l10, l11, l12, l13, l14, l15⟩ := hlit
  obtain ⟨h1, h2, h3, h4, h5, h6, h7, h8, h9, h10, h11, h12⟩ := hcol
  rw [build_args_eq]
  simp only [List.count_append]
  rw [count_bind_flatten_assoc tok l14 l15, count_bind_flatten_binding tok l14 l15,
      List.count_eq_zero.mpr h12]
  have e1 : List.count tok
      ["fzf", "--with-shell", c.shell, "--height", c.height, "--layout", c.layout,
       "--prompt", c.prompt, "--info", c.info] = 0 := by
    simp [List.count_cons, Ne.symm l1, Ne.symm l2, Ne.symm l3, Ne.symm l4, Ne.symm l5,
          Ne.symm l6, h1, h2, h3, h4, h5]
  have e2 : List.count tok (if c.ansi then ["--ansi"] else []) = 0 := by
    cases c.ansi <;> simp [List.count_cons, Ne.symm l7]
  have e3 : List.count tok (if c.disabled then ["--disabled"] else []) = 0 := by
    cases c.disabled <;> simp [List.count_cons, Ne.symm l8]
  have e4 : List.count tok (if c.delimiter ≠ "" then ["-d", c.delimiter] else []) = 0 := by
    split <;> simp [List.count_cons, Ne.symm l9, h6]
  have e5 : List.count tok (if c.no_border then ["--no-border"] else []) = 0 := by
    cases c.no_border <;> simp [List.count_cons, Ne.symm l10]
  have e6 : List.count tok
      (if c.initial_query ≠ "" then ["--query", c.initial_query] else []) = 0 := by
    split <;> simp [List.count_cons, Ne.symm l11, h7]
  have e7 : List.count tok
      (if optTruthy c.preview_command then
        ["--preview", c.preview_command.getD "", "--preview-window", c.preview_window]
      else []) = 0 := by
    rw [hprev]
    simp
  have e8 : List.count tok
      (if optTruthy c.history_file then ["--history", c.history_file.getD ""] else []) = 0 := by
    split <;> simp [List.count_cons, Ne.symm l12, h10]
  have e9 : List.count tok ["--footer", c.footer] = 0 := by
    simp [List.count_cons, Ne.symm l13, h11]
  omega

/-- Claim C3 (amended): for every configuration and binding sequence the
argument list begins with the token `fzf`; when the configured string
values and extra raw flags do not themselves collide with the literal
token `--footer`, the list contains exactly one `--footer` occurrence;
and when no preview command is configured, the list contains no
`--preview`/`--preview-window` occurrence provided those literals
likewise are not smuggled in through configured values or extra raw
flags.  (The original claim quantified over arbitrary extra raw flags,
which can inject extra occurrences — see the counterexample.) -/
theorem claim_C3 (c : FzfConfig) (bs : List Binding) :
    (FzfCommandBuilder.build_args c bs).head? = some "fzf" ∧
    (noTokenCollision c "--footer" →
      List.count "--footer" (FzfCommandBuilder.build_args c bs) = 1) ∧
    (c.preview_command = none → noTokenCollision c "--preview" →
      noTokenCollision c "--preview-window" →
      "--preview" ∉ FzfCommandBuilder.build_args c bs ∧
      "--preview-window" ∉ FzfCommandBuilder.build_args c bs) := by
  refine ⟨by rw [build_args_eq]; rfl, ?_, ?_⟩
  · rintro ⟨h1, h2, h3, h4, h5, h6, h7, h8, h9, h10, h11, h12⟩
    rw [build_args_eq]
    simp only [List.count_append]
    rw [count_bind_flatten_assoc "--footer" (by decide) (by decide),
        count_bind_flatten_binding "--footer" (by decide) (by decide),
        List.count_eq_zero.mpr h12]
    have e1 : List.count "--footer"
        ["fzf", "--with-shell", c.shell, "--height", c.height, "--layout", c.layout,
         "--prompt", c.prompt, "--info", c.info] = 0 := by
      simp [List.count_cons, h1, h2, h3, h4, h5]
    have e2 : List.count "--footer" (if c.ansi then ["--ansi"] else []) = 0 := by
      cases c.ansi <;> simp
    have e3 : List.count "--footer" (if c.disabled then ["--disabled"] else []) = 0 := by
      cases c.disabled <;> simp
    have e4 : List.count "--footer"
        (if c.delimiter ≠ "" then ["-d", c.delimiter] else []) = 0 := by
      split <;> simp [List.count_cons, h6]
    have e5 : List.count "--footer" (if c.no_border then ["--no-border"] else []) = 0 := by
      cases c.no_border <;> simp
    have e6 : List.count "--footer"
        (if c.initial_query ≠ "" then ["--query", c.initial_query] else []) = 0 := by
      split <;> simp [List.count_cons, h7]
    have e7 : List.count "--footer"
        (if optTruthy c.preview_command then
          ["--preview", c.preview_command.getD "", "--preview-window", c.preview_window]
        else []) = 0 := by
      split <;> simp [List.count_cons, h8, h9]
    have e8 : List.count "--footer"
        (if optTruthy c.history_file then ["--history", c.history_file.getD ""] else []) = 0 := by
      split <;> simp [List.count_cons, h10]
    have e9 : List.count "--footer" ["--footer", c.footer] = 1 := by
      simp [List.count_cons, h11]
    omega
  · intro hnone hcolP hcolW
    have hopt : optTruthy c.preview_command = false := by rw [hnone]; rfl
    exact ⟨List.count_eq_zero.mp (count_flags_zero c bs "--preview" (by decide) hcolP hopt),
           List.count_eq_zero.mp
             (count_flags_zero c bs "--preview-window" (by decide) hcolW hopt)⟩

/-- Claim C3 witness: the amended theorem applied to the default
configuration. -/
theorem claim_C3_witness :
    List.count "--footer" (FzfCommandBuilder.build_args {} []) = 1 ∧
    "--preview" ∉ FzfCommandBuilder.build_args {} [] := by
  have h := claim_C3 {} []
  exact ⟨h.2.1 (by decide), (h.2.2 rfl (by decide) (by decide)).1⟩

/-- Claim C3 counterexample: with `extra_args = ["--footer"]` the
argument list contains two `--footer` occurrences, so the original
claim's "exactly one footer flag for every configuration including
arbitrary extra raw flags" is false. -/
theorem claim_C3_counterexample :
    List.count "--footer" (FzfCommandBuilder.build_args { extra_args := ["--footer"] } []) =
      2 := by decide

/-! ## Claim C8: missing/unparseable mode-state file -/

/-- Claim C8 (corrected), counterexample: a state file whose entire
content is the delimiter-less string `pinned` is unparseable under the
`mode|pinned_options` format, yet the reload transform reads pinned
options `pinned` from it and prefixes them into the rebuilt command,
instead of treating it as inline mode with empty pinned options. -/
theorem claim_C8_counterexample :
    readPinnedOpts (some "pinned") = "pinned" ∧
    rebuildCmd (readPinnedOpts (some "pinned")) "--json" "rg foo" = "rg pinned --json foo" ∧
    rebuildCmd "" "--json" "rg foo" = "rg --json foo" := by decide

/-- Claim C8 (amended): a missing state file yields empty pinned
options; any content whose prefix before the first `|` (after stripping
trailing newlines) differs from `pinned` — in particular every
unparseable delimiter-less content other than the exact string `pinned`
— also yields empty pinned options, in which case nothing is prefixed
into the rebuilt command; the one exception is a delimiter-less content
exactly `pinned`, which is mis-read as pinned mode with pinned options
string `pinned`.  The reading is a total function, hence never fatal. -/
theorem claim_C8 :
    readPinnedOpts none = "" ∧
    (∀ content : String, beforeFirstBar (stripTrailingNewlines content) ≠ "pinned" →
      readPinnedOpts (some content) = "") ∧
    readPinnedOpts (some "pinned") = "pinned" ∧
    (∀ implicit_opts cmd : String, startsWithRg cmd = true →
      rebuildCmd "" implicit_opts cmd =
        "rg " ++ implicit_opts ++ String.mk (cmd.data.drop 2)) ∧
    (∀ pinned_opts implicit_opts cmd : String, startsWithRg cmd = false →
      rebuildCmd pinned_opts implicit_opts cmd = cmd) := by
  refine ⟨rfl, ?_, by decide, ?_, ?_⟩
  · intro content h
    simp [readPinnedOpts, h]
  · intro implicit_opts cmd h
    simp [rebuildCmd, h]
  · intro pinned_opts implicit_opts cmd h
    simp [rebuildCmd, h]

/-- Claim C8 witness: the amended theorem applied to a malformed
delimiter-less content and to concrete rebuilds. -/
theorem claim_C8_witness :
    readPinnedOpts (some "garbage") = "" ∧
    rebuildCmd "" "--json " "rg TODO ." = "rg --json  TODO ." ∧
    rebuildCmd "x" "--json " "fd TODO" = "fd TODO" := by
  have h := claim_C8
  exact ⟨h.2.1 "garbage" (by decide), h.2.2.2.1 "--json " "rg TODO ." (by decide),
         h.2.2.2.2 "x" "--json " "fd TODO" (by decide)⟩

/-! ## Claim C7: glob-expansion exclusion filtering -/

/-- Claim C7 (confirmed): when an exclusion pattern is present in the
combined pinned-options-plus-command string, every candidate match that
some non-empty exclusion pattern glob-matches (by basename) is dropped
from the filtered set; when the filtering empties the match set the
command line is left untouched; and for candidates `code.py`,
`code.test` with pattern `!*.test` present, the filtered set is exactly
`[code.py]`. -/
theorem claim_C7 :
    (∀ (pinned_opts cmd : String) (ms : List String),
      ¬(extractExclusions (pinned_opts ++ " " ++ cmd).data).isEmpty →
      (∀ m ∈ ms, isExcluded (pinned_opts ++ " " ++ cmd) m = true →
        m ∉ filteredMatches (pinned_opts ++ " " ++ cmd) ms) ∧
      (filteredMatches (pinned_opts ++ " " ++ cmd) ms = [] →
        globExpandSubst pinned_opts cmd ms = cmd)) ∧
    filteredMatches "-g \x27!*.test\x27 rg code" ["code.py", "code.test"] = ["code.py"] := by
  constructor
  · intro pinned_opts cmd ms hexcl
    constructor
    · intro m _ hm hmem
      have := (List.mem_filter.mp hmem).2
      rw [hm] at this
      simp at this
    · intro hempty
      unfold globExpandSubst
      split
      · dsimp only
        rw [if_neg hexcl, hempty]
        simp
      · rfl
  · decide

/-- Claim C7 witness: applying the theorem where filtering empties the
match set leaves the command untouched. -/
theorem claim_C7_witness :
    globExpandSubst "-g \x27!*.test\x27" "rg code" ["code.test"] = "rg code" :=
  (claim_C7.1 "-g \x27!*.test\x27" "rg code" ["code.test"] (by decide)).2 (by decide)

/-! ## Claim C2: mode-toggle round trip -/

/-- Helper: splitting consumes a whitespace-free run into the
accumulator. -/
theorem pySplitAux_run (w : List Char) :
    ∀ (rest acc : List Char), (∀ c ∈ w, ¬(c.isWhitespace = true)) →
      pySplitAux acc (w ++ rest) = pySplitAux (acc ++ w) rest := by
  induction w with
  | nil => intro rest acc _; simp
  | cons c w' ih =>
    intro rest acc hw
    have hc : ¬(c.isWhitespace = true) := hw c (by simp)
    simp only [List.cons_append, pySplitAux, if_neg hc, List.append_eq]
    rw [ih rest (acc ++ [c]) (fun d hd => hw d (by simp [hd]))]
    simp

/-- Tokens wellformed for round-tripping through `joinSpace`/`pySplit`:
non-empty and whitespace-free. -/
def tokensOk (l : List String) : Prop :=
  ∀ t ∈ l, t.data ≠ [] ∧ ∀ c ∈ t.data, ¬(c.isWhitespace = true)

instance (l : List String) : Decidable (tokensOk l) := by
  unfold tokensOk; infer_instance

/-- Helper: `pySplit` is a left inverse of `joinSpace` on wellformed
token lists. -/
theorem pySplit_joinSpace (l : List String) (hl : tokensOk l) : pySplit (joinSpace l) = l := by
  have main : ∀ (l : List String), tokensOk l → pySplitAux [] (jd l) = l := by
    intro l
    induction l with
    | nil => intro _; rfl
    | cons a t ih =>
      intro hl
      obtain ⟨ha1, ha2⟩ := hl a (by simp)
      cases t with
      | nil =>
        show pySplitAux [] (jd [a]) = [a]
        have : jd [a] = a.data ++ [] := by simp [jd]
        rw [this, pySplitAux_run a.data [] [] ha2]
        simp [pySplitAux, ha1]
      | cons b rest =>
        show pySplitAux [] (a.data ++ ' ' :: jd (b :: rest)) = a :: b :: rest
        rw [pySplitAux_run a.data (' ' :: jd (b :: rest)) [] ha2]
        have h2 : pySplitAux ([] ++ a.data) (' ' :: jd (b :: rest)) =
            String.mk a.data :: pySplitAux [] (jd (b :: rest)) := by
          simp [pySplitAux, ha1]
        rw [h2, ih (fun t ht => hl t (by simp [ht]))]
  rw [pySplit, joinSpace_data]
  exact main l hl

/-- Helper: `extractFlags` keeps a list of non-flag tokens untouched. -/
theorem extractFlags_keep (rest : List String) (h : ∀ t ∈ rest, isFlagToken t = false) :
    extractFlags rest = ([], rest) := by
  induction rest with
  | nil => rfl
  | cons r rs ih =>
    have hr : isFlagToken r = false := h r (by simp)
    cases rs with
    | nil => simp [extractFlags, hr]
    | cons r2 rs2 =>
      simp only [extractFlags, hr, Bool.false_eq_true, if_false]
      rw [ih (fun t ht => h t (by simp [ht]))]

/-- Modelled from the spec: the header shapes this system produces — a
sequence of flag tokens in which the value-taking short option `-g` is
always followed by its (non-flag) value token and never dangles at the
end. -/
def wfFlagTokens : List String → Bool
  | [] => true
  | [t] => isFlagToken t && !takesValue t
  | t :: v :: ts =>
    isFlagToken t &&
      (if takesValue t && !isFlagToken v then wfFlagTokens ts else wfFlagTokens (v :: ts))

/-- Helper: `extractFlags` separates a wellformed flag prefix from a
non-flag suffix exactly. -/
theorem extractFlags_split (us : List String) :
    ∀ (rest : List String), wfFlagTokens us = true →
      (∀ t ∈ rest, isFlagToken t = false) → extractFlags (us ++ rest) = (us, rest) := by
  match us with
  | [] =>
    intro rest _ hrest
    simpa using extractFlags_keep rest hrest
  | [t] =>
    intro rest hwf hrest
    have hwf' : isFlagToken t = true ∧ takesValue t = false := by
      simpa [wfFlagTokens, Bool.and_eq_true, Bool.not_eq_true'] using hwf
    cases rest with
    | nil => simp [extractFlags, hwf'.1]
    | cons r rs =>
      show extractFlags (t :: r :: rs) = ([t], r :: rs)
      simp [extractFlags, hwf'.1, hwf'.2, extractFlags_keep (r :: rs) hrest]
  | t :: v :: ts =>
    intro rest hwf hrest
    simp only [wfFlagTokens] at hwf
    rw [Bool.and_eq_true] at hwf
    obtain ⟨hflag, hif⟩ := hwf
    by_cases hcond : (takesValue t && !isFlagToken v) = true
    · rw [if_pos hcond] at hif
      have ihr := extractFlags_split ts rest hif hrest
      show extractFlags (t :: v :: (ts ++ rest)) = (t :: v :: ts, rest)
      simp [extractFlags, hflag, hcond, ihr]
    · rw [if_neg hcond] at hif
      have ihr := extractFlags_split (v :: ts) rest hif hrest
      show extractFlags (t :: v :: (ts ++ rest)) = (t :: v :: ts, rest)
      rw [show (v :: ts) ++ rest = v :: (ts ++ rest) from rfl] at ihr
      simp [extractFlags, hflag, hcond, ihr]
termination_by us.length

/-- Claim C2 (confirmed against the spec model): for every header/query
pair this system produces — a wellformed flag-token header and a query
of command token `rg` followed by non-flag tokens, all tokens non-empty
and whitespace-free — `eject_to_pinned` after `inject_to_inline`
restores the pair; and the claim's concrete instance holds:
`inject_to_inline "--smart-case --hidden" "rg test ."` yields
`("", "rg --smart-case --hidden test .")` and `eject_to_pinned` on that
query yields `("--smart-case --hidden", "rg test .")`. -/
theorem claim_C2 :
    (∀ (us rest : List String), wfFlagTokens us = true → tokensOk us → tokensOk rest →
      (∀ t ∈ rest, isFlagToken t = false) →
      eject_to_pinned (inject_to_inline (joinSpace us) (joinSpace ("rg" :: rest))).2 =
        (joinSpace us, joinSpace ("rg" :: rest))) ∧
    inject_to_inline "--smart-case --hidden" "rg test ." =
      ("", "rg --smart-case --hidden test .") ∧
    eject_to_pinned "rg --smart-case --hidden test ." =
      ("--smart-case --hidden", "rg test .") := by
  refine ⟨?_, by decide, by decide⟩
  intro us rest hwf hus hrest hnf
  have hrg : tokensOk ("rg" :: rest) := by
    intro t ht
    rcases List.mem_cons.mp ht with h | h
    · subst h; exact ⟨by decide, by decide⟩
    · exact hrest t h
  have hall : tokensOk ("rg" :: (us ++ rest)) := by
    intro t ht
    rcases List.mem_cons.mp ht with h | h
    · subst h; exact ⟨by decide, by decide⟩
    · rcases List.mem_append.mp h with h2 | h2
      · exact hus t h2
      · exact hrest t h2
  have h1 : pySplit (joinSpace ("rg" :: rest)) = "rg" :: rest := pySplit_joinSpace _ hrg
  have h2 : pySplit (joinSpace us) = us := pySplit_joinSpace _ hus
  have hinj : inject_to_inline (joinSpace us) (joinSpace ("rg" :: rest)) =
      ("", joinSpace ("rg" :: (us ++ rest))) := by
    unfold inject_to_inline
    rw [h1, h2]
  rw [hinj]
  show eject_to_pinned (joinSpace ("rg" :: (us ++ rest))) = _
  unfold eject_to_pinned
  rw [pySplit_joinSpace _ hall]
  dsimp only
  rw [extractFlags_split us rest hwf hnf]

/-- Claim C2 witness: the round-trip law applied to the claim's concrete
header/query pair. -/
theorem claim_C2_witness :
    eject_to_pinned
        (inject_to_inline (joinSpace ["--smart-case", "--hidden"])
          (joinSpace ("rg" :: ["test", "."]))).2 =
      (joinSpace ["--smart-case", "--hidden"], joinSpace ("rg" :: ["test", "."])) :=
  claim_C2.1 ["--smart-case", "--hidden"] ["test", "."] (by decide) (by decide) (by decide)
    (by decide)

/-! ## Claim C4: the shell-escaped command string re-parses exactly -/

/-- Helper: running the splitter over a concatenation. -/
theorem spRun_append (st : SpState) (xs ys : List Char) :
    spRun st (xs ++ ys) = spRun (spRun st xs) ys :=
  List.foldl_append spStep st xs ys

/-- Helper: a shlex-safe character is not IFS whitespace, not a quote,
not a backslash. -/
theorem safe_not_special (c : Char) (h : isSafeChar c = true) :
    c.isWhitespace = false ∧ c ≠ '\x27' ∧ c ≠ '\x22' ∧ c ≠ '\\' := by
  refine ⟨?_, ?_, ?_, ?_⟩
  · cases hw : c.isWhitespace
    · rfl
    · exfalso
      have h4 : c = ' ' ∨ c = '\t' ∨ c = '\r' ∨ c = '\n' := by
        simpa [Char.isWhitespace, Bool.or_eq_true, decide_eq_true_iff, or_assoc] using hw
      rcases h4 with h4 | h4 | h4 | h4 <;> subst h4 <;> exact absurd h (by decide)
  · intro hc; subst hc; exact absurd h (by decide)
  · intro hc; subst hc; exact absurd h (by decide)
  · intro hc; subst hc; exact absurd h (by decide)

/-- Helper: one step on a shlex-safe character, outside quotes, appends
it to the current word. -/
theorem spStep_safe (cur : List Char) (started : Bool) (acc : List String) (c : Char)
    (h : isSafeChar c = true) :
    spStep ⟨.norm, cur, started, acc⟩ c = ⟨.norm, cur ++ [c], true, acc⟩ := by
  obtain ⟨hws, hq, hd, hb⟩ := safe_not_special c h
  simp [spStep, hws, hq, hd, hb]

/-- Helper: a run of shlex-safe characters, outside quotes with a word
already started, is copied into the current word. -/
theorem spRun_safe_aux (w : List Char) :
    ∀ (cur : List Char) (acc : List String), (∀ c ∈ w, isSafeChar c = true) →
      spRun ⟨.norm, cur, true, acc⟩ w = ⟨.norm, cur ++ w, true, acc⟩ := by
  induction w with
  | nil => intro cur acc _; simp [spRun]
  | cons c w' ih =>
    intro cur acc hw
    show spRun (spStep ⟨.norm, cur, true, acc⟩ c) w' = _
    rw [spStep_safe cur true acc c (hw c (by simp))]
    rw [ih (cur ++ [c]) acc (fun d hd => hw d (by simp [hd]))]
    simp

/-- Helper: the single-quoted rendering of a word is consumed inside
single quotes, reproducing the word in the current field. -/
theorem spRun_escBody (w : List Char) :
    ∀ (cur : List Char) (acc : List String),
      spRun ⟨.inSQ, cur, true, acc⟩ (w.map escChar).flatten = ⟨.inSQ, cur ++ w, true, acc⟩ := by
  induction w with
  | nil => intro cur acc; simp [spRun]
  | cons c w' ih =>
    intro cur acc
    by_cases hc : c = '\x27'
    · subst hc
      show spRun _ (['\x27', '\x22', '\x27', '\x22', '\x27'] ++ (w'.map escChar).flatten) = _
      rw [spRun_append]
      have hfive :
          spRun ⟨.inSQ, cur, true, acc⟩ ['\x27', '\x22', '\x27', '\x22', '\x27'] =
            ⟨.inSQ, cur ++ ['\x27'], true, acc⟩ := by
        simp [spRun, spStep]
      rw [hfive, ih (cur ++ ['\x27']) acc]
      simp
    · rw [List.map_cons, List.flatten_cons, show escChar c = [c] from by simp [escChar, hc]]
      show spRun (spStep ⟨.inSQ, cur, true, acc⟩ c) (w'.map escChar).flatten = _
      have hstep : spStep ⟨.inSQ, cur, true, acc⟩ c = ⟨.inSQ, cur ++ [c], true, acc⟩ := by
        simp [spStep, hc]
      rw [hstep, ih (cur ++ [c]) acc]
      simp

/-- Helper: consuming one shlex-quoted token from outside quotes copies
exactly the original token into the current field. -/
theorem spRun_quote (t : String) (cur : List Char) (started : Bool) (acc : List String) :
    spRun ⟨.norm, cur, started, acc⟩ (shlexQuote t).data =
      ⟨.norm, cur ++ t.data, true, acc⟩ := by
  unfold shlexQuote
  by_cases h0 : t = ""
  · subst h0
    simp [spRun, spStep]
  · rw [if_neg h0]
    by_cases h1 : t.data.all isSafeChar
    · rw [if_pos h1]
      have hne : t.data ≠ [] := fun hdata =>
        h0 (String.ext (show t.data = ("" : String).data from hdata))
      cases hd : t.data with
      | nil => exact absurd hd hne
      | cons c w =>
        have hsafe : ∀ d ∈ c :: w, isSafeChar d = true := by
          intro d hdm
          exact List.all_eq_true.mp h1 d (hd ▸ hdm)
        show spRun (spStep ⟨.norm, cur, started, acc⟩ c) w = _
        rw [spStep_safe cur started acc c (hsafe c (by simp))]
        rw [spRun_safe_aux w (cur ++ [c]) acc (fun d hdm => hsafe d (by simp [hdm]))]
        simp
    · rw [if_neg h1]
      show spRun (spStep ⟨.norm, cur, started, acc⟩ '\x27')
          ((t.data.map escChar).flatten ++ ['\x27']) = _
      have hq : spStep ⟨.norm, cur, started, acc⟩ '\x27' = ⟨.inSQ, cur, true, acc⟩ := by
        simp [spStep]
      rw [hq, spRun_append, spRun_escBody t.data cur acc]
      simp [spRun, spStep]

/-- Helper: splitting the space-joined quoted tokens recovers exactly
the token list, whatever fields were already accumulated. -/
theorem finish_tokens (args : List String) :
    ∀ acc : List String,
      finishSplit (spRun ⟨.norm, [], false, acc⟩ (jd (args.map shlexQuote))) =
        some (acc ++ args) := by
  induction args with
  | nil => intro acc; simp [jd, spRun, finishSplit]
  | cons a t ih =>
    intro acc
    cases t with
    | nil =>
      show finishSplit (spRun _ (jd [shlexQuote a])) = _
      rw [show jd [shlexQuote a] = (shlexQuote a).data from rfl]
      rw [spRun_quote a [] false acc]
      simp [finishSplit]
    | cons b rest =>
      show finishSplit (spRun _ (jd (shlexQuote a :: shlexQuote b :: rest.map shlexQuote))) = _
      rw [show jd (shlexQuote a :: shlexQuote b :: rest.map shlexQuote) =
            (shlexQuote a).data ++ ' ' :: jd (shlexQuote b :: rest.map shlexQuote) from rfl]
      rw [spRun_append, spRun_quote a [] false acc]
      show finishSplit
          (spRun (spStep ⟨.norm, [] ++ a.data, true, acc⟩ ' ')
            (jd ((b :: rest).map shlexQuote))) = _
      have hsp : spStep ⟨.norm, [] ++ a.data, true, acc⟩ ' ' =
          ⟨.norm, [], false, acc ++ [String.mk ([] ++ a.data)]⟩ := by
        simp [spStep]
      rw [hsp, show String.mk ([] ++ a.data) = a from rfl, ih (acc ++ [a])]
      simp

/-- Claim C4 (confirmed): for every configuration and binding sequence,
`build_command_string` — the space join of the shlex-quoted tokens of
`build_args` — re-parses under POSIX shell word splitting to exactly the
original argument list, token for token. -/
theorem claim_C4 (c : FzfConfig) (bs : List Binding) :
    posixSplit (FzfCommandBuilder.build_command_string c bs) =
      some (FzfCommandBuilder.build_args c bs) := by
  unfold FzfCommandBuilder.build_command_string posixSplit
  rw [joinSpace_data]
  simpa using finish_tokens (FzfCommandBuilder.build_args c bs) []

/-! ## Claim C9: one-line shell fragments -/

/-- Helper: every field produced by the splitter is non-empty. -/
theorem pySplitAux_words_nonempty :
    ∀ (l acc : List Char), ∀ w ∈ pySplitAux acc l, w.data ≠ [] := by
  intro l
  induction l with
  | nil =>
    intro acc w hw
    by_cases ha : acc = []
    · simp [pySplitAux, ha] at hw
    · simp only [pySplitAux, if_neg ha, List.mem_singleton] at hw
      subst hw
      exact ha
  | cons c cs ih =>
    intro acc w hw
    by_cases hws : c.isWhitespace = true
    · by_cases ha : acc = []
      · simp only [pySplitAux, if_pos hws, if_pos ha] at hw
        exact ih [] w hw
      · simp only [pySplitAux, if_pos hws, if_neg ha, List.mem_cons] at hw
        rcases hw with hw | hw
        · subst hw; exact ha
        · exact ih [] w hw
    · simp only [pySplitAux, if_neg hws] at hw
      exact ih (acc ++ [c]) w hw

/-- Helper: every field produced by the splitter is whitespace-free
when the accumulator is. -/
theorem pySplitAux_words_nows :
    ∀ (l acc : List Char), (∀ c ∈ acc, c.isWhitespace = false) →
      ∀ w ∈ pySplitAux acc l, ∀ c ∈ w.data, c.isWhitespace = false := by
  intro l
  induction l with
  | nil =>
    intro acc hacc w hw
    by_cases ha : acc = []
    · simp [pySplitAux, ha] at hw
    · simp only [pySplitAux, if_neg ha, List.mem_singleton] at hw
      subst hw
      exact hacc
  | cons c cs ih =>
    intro acc hacc w hw
    by_cases hws : c.isWhitespace = true
    · by_cases ha : acc = []
      · simp only [pySplitAux, if_pos hws, if_pos ha] at hw
        exact ih [] (by simp) w hw
      · simp only [pySplitAux, if_pos hws, if_neg ha, List.mem_cons] at hw
        rcases hw with hw | hw
        · subst hw; exact hacc
        · exact ih [] (by simp) w hw
    · simp only [pySplitAux, if_neg hws] at hw
      refine ih (acc ++ [c]) ?_ w hw
      intro d hd
      rcases List.mem_append.mp hd with hd | hd
      · exact hacc d hd
      · simp only [List.mem_singleton] at hd
        subst hd
        exact Bool.not_eq_true _ ▸ (by simpa using hws)

/-- Predicate on a character stream: no `#` stands at a word start.
The state records whether the previous character was whitespace (or the
stream start); such a `#` would begin a shell comment on the collapsed
line. -/
def wsOk : Bool → List Char → Bool
  | _, [] => true
  | b, c :: cs =>
    if c.isWhitespace then wsOk true cs
    else (!b || !(c == '#')) && wsOk false cs

/-- State after a character stream: whether its last character is
whitespace (the input flag when the stream is empty). -/
def wsState : Bool → List Char → Bool
  | b, [] => b
  | _, c :: cs => wsState c.isWhitespace cs

theorem wsOk_append (xs : List Char) :
    ∀ (ys : List Char) (b : Bool),
      wsOk b (xs ++ ys) = (wsOk b xs && wsOk (wsState b xs) ys) := by
  induction xs with
  | nil => intro ys b; simp [wsOk, wsState]
  | cons c cs ih =>
    intro ys b
    cases hws : c.isWhitespace
    · simp [wsOk, wsState, hws, ih, Bool.and_assoc]
    · simp [wsOk, wsState, hws, ih]

theorem wsOk_mono (l : List Char) (h : wsOk true l = true) : ∀ b, wsOk b l = true := by
  intro b
  cases b
  · induction l with
    | nil => rfl
    | cons c cs ih =>
      by_cases hws : c.isWhitespace = true
      · simpa [wsOk, hws] using h
      · simp only [wsOk, if_neg hws, Bool.and_eq_true] at h ⊢
        exact ⟨by simp, h.2⟩
  · exact h

theorem wsOk_no_hash (l : List Char) (h : ∀ c ∈ l, c ≠ '#') : ∀ b, wsOk b l = true := by
  induction l with
  | nil => intro b; rfl
  | cons c cs ih =>
    intro b
    by_cases hws : c.isWhitespace = true
    · simp only [wsOk, if_pos hws]
      exact ih (fun d hd => h d (by simp [hd])) true
    · simp only [wsOk, if_neg hws, Bool.and_eq_true]
      refine ⟨?_, ih (fun d hd => h d (by simp [hd])) false⟩
      have := h c (by simp)
      simp [this]

/-- Helper: combining `wsOk` across concatenation when both parts hold
in every state. -/
theorem wsOk_all_append (xs ys : List Char) (hx : ∀ b, wsOk b xs = true)
    (hy : ∀ b, wsOk b ys = true) : ∀ b, wsOk b (xs ++ ys) = true := by
  intro b
  rw [wsOk_append, hx, hy]
  rfl

/-- Helper: no field produced by the splitter starts with `#` when the
input satisfies `wsOk` (no `#` at a word start) and the accumulator does
not start with `#`. -/
theorem pySplitAux_words_head :
    ∀ (l acc : List Char), (acc ≠ [] → acc.head? ≠ some '#') → wsOk acc.isEmpty l = true →
      ∀ w ∈ pySplitAux acc l, w.data.head? ≠ some '#' := by
  intro l
  induction l with
  | nil =>
    intro acc hacc _ w hw
    by_cases ha : acc = []
    · simp [pySplitAux, ha] at hw
    · simp only [pySplitAux, if_neg ha, List.mem_singleton] at hw
      subst hw
      exact hacc ha
  | cons c cs ih =>
    intro acc hacc hws w hw
    by_cases hcw : c.isWhitespace = true
    · have hrest : wsOk true cs = true := by simpa [wsOk, hcw] using hws
      by_cases ha : acc = []
      · simp only [pySplitAux, if_pos hcw, if_pos ha] at hw
        exact ih [] (by simp) (by simpa using hrest) w hw
      · simp only [pySplitAux, if_pos hcw, if_neg ha, List.mem_cons] at hw
        rcases hw with hw | hw
        · subst hw; exact hacc ha
        · exact ih [] (by simp) (by simpa using hrest) w hw
    · have hcwf : c.isWhitespace = false := by simpa using hcw
      simp only [pySplitAux, if_neg hcw] at hw
      have hparts : ((!acc.isEmpty || !(c == '#')) && wsOk false cs) = true := by
        simpa [wsOk, hcwf] using hws
      rw [Bool.and_eq_true] at hparts
      have hne : (acc ++ [c]).isEmpty = false := by simp
      by_cases ha : acc = []
      · have hc : c ≠ '#' := by
          have h1 := hparts.1
          rw [ha] at h1
          simpa using h1
        refine ih (acc ++ [c]) ?_ ?_ w hw
        · intro _
          rw [ha]
          simpa using hc
        · rw [hne]
          exact hparts.2
      · refine ih (acc ++ [c]) ?_ ?_ w hw
        · intro _
          cases acc with
          | nil => exact absurd rfl ha
          | cons x xs => simpa using hacc ha
        · rw [hne]
          exact hparts.2

/-- Helper: a whitespace-free stream passes `wsOk` from a non-word-start
state. -/
theorem wsOk_false_of_nows (l : List Char) (h : ∀ c ∈ l, c.isWhitespace = false) :
    wsOk false l = true := by
  induction l with
  | nil => rfl
  | cons c cs ih =>
    have hc : c.isWhitespace = false := h c (by simp)
    simp only [wsOk, hc, Bool.false_eq_true, if_false, Bool.not_false, Bool.true_or,
      Bool.true_and]
    exact ih (fun d hd => h d (by simp [hd]))

/-- Helper: one whitespace character resets `wsOk` to the word-start
state. -/
theorem wsOk_space_cons (b : Bool) (l : List Char) : wsOk b (' ' :: l) = wsOk true l := by
  simp [wsOk]

/-- Helper: the space join of non-empty, whitespace-free fields none of
which starts with `#` satisfies `wsOk`. -/
theorem wsOk_jd (l : List String)
    (h : ∀ w ∈ l, w.data ≠ [] ∧ w.data.head? ≠ some '#' ∧
      ∀ c ∈ w.data, c.isWhitespace = false) :
    wsOk true (jd l) = true := by
  have single : ∀ w : String, w.data ≠ [] → w.data.head? ≠ some '#' →
      (∀ c ∈ w.data, c.isWhitespace = false) → wsOk true w.data = true := by
    intro w hne hhead hnows
    cases hd : w.data with
    | nil => exact absurd hd hne
    | cons c cw =>
      rw [hd] at hhead hnows
      have hc : c ≠ '#' := by simpa using hhead
      have hcw : c.isWhitespace = false := hnows c (by simp)
      simp only [wsOk, hcw, Bool.false_eq_true, if_false, Bool.and_eq_true]
      refine ⟨by simpa using hc, wsOk_false_of_nows cw (fun d hd2 => hnows d (by simp [hd2]))⟩
  induction l with
  | nil => rfl
  | cons a t ih =>
    obtain ⟨ha1, ha2, ha3⟩ := h a (by simp)
    cases t with
    | nil => exact single a ha1 ha2 ha3
    | cons b rest =>
      show wsOk true (a.data ++ ' ' :: jd (b :: rest)) = true
      rw [wsOk_append, single a ha1 ha2 ha3, wsOk_space_cons,
        ih (fun w hw => h w (by simp at hw ⊢; tauto))]
      rfl

/-- Helper: `oneline` preserves the absence of comment-starting `#`. -/
theorem oneline_wsOk (s : String) (h : wsOk true s.data = true) :
    wsOk true (oneline s).data = true := by
  unfold oneline
  rw [joinSpace_data]
  apply wsOk_jd
  intro w hw
  exact ⟨pySplitAux_words_nonempty s.data [] w hw,
    pySplitAux_words_head s.data [] (by simp) (by simpa using h) w hw,
    pySplitAux_words_nows s.data [] (by simp) w hw⟩

/-- Helper: characters of a space join come from a field or are the
separator. -/
theorem jd_mem (l : List String) (c : Char) :
    c ∈ jd l → (∃ w ∈ l, c ∈ w.data) ∨ c = ' ' := by
  induction l with
  | nil => intro h; simp [jd] at h
  | cons a t ih =>
    intro h
    cases t with
    | nil =>
      left
      exact ⟨a, by simp, by simpa [jd] using h⟩
    | cons b rest =>
      have h2 : c ∈ a.data ∨ c = ' ' ∨ c ∈ jd (b :: rest) := by simpa [jd] using h
      rcases h2 with h2 | h2 | h2
      · exact Or.inl ⟨a, by simp, h2⟩
      · exact Or.inr h2
      · rcases ih h2 with ⟨w, hw, hc⟩ | h4
        · exact Or.inl ⟨w, by simp [hw], hc⟩
        · exact Or.inr h4

/-- Helper: `oneline` output never contains a newline. -/
theorem oneline_no_newline (s : String) : '\n' ∉ (oneline s).data := by
  intro hmem
  unfold oneline at hmem
  rw [joinSpace_data] at hmem
  rcases jd_mem _ _ hmem with ⟨w, hw, hc⟩ | hc
  · have := pySplitAux_words_nows s.data [] (by simp) w hw '\n' hc
    exact absurd this (by decide)
  · exact absurd hc (by decide)

set_option maxRecDepth 40000 in
/-- Helper: the formatted reload-transform template has no
comment-starting `#` when the substituted values satisfy `wsOk` in every
state. -/
theorem reload_fmt_wsOk (g i d : String)
    (hg : ∀ b, wsOk b g.data = true) (hi : ∀ b, wsOk b i.data = true)
    (hdelta : ∀ b, wsOk b d.data = true) :
    ∀ b, wsOk b (RELOAD_TRANSFORM_fmt g i d).data = true := by
  unfold RELOAD_TRANSFORM_fmt
  simp only [String.data_append]
  apply wsOk_all_append
  · apply wsOk_all_append
    · apply wsOk_all_append
      · apply wsOk_all_append
        · apply wsOk_all_append
          · apply wsOk_all_append
            · apply wsOk_all_append
              · apply wsOk_all_append
                · exact wsOk_mono _ (by decide)
                · exact hg
              · exact wsOk_mono _ (by decide)
            · exact hi
          · exact wsOk_mono _ (by decide)
        · exact hi
      · exact wsOk_mono _ (by decide)
    · exact hdelta
  · exact wsOk_mono _ (by decide)

set_option maxRecDepth 40000 in
/-- Helper: the formatted pinned start-reload template has no
comment-starting `#` when the substituted values satisfy `wsOk` in every
state. -/
theorem start_pinned_fmt_wsOk (g ca i d : String)
    (hg : ∀ b, wsOk b g.data = true) (hca : ∀ b, wsOk b ca.data = true)
    (hi : ∀ b, wsOk b i.data = true) (hdelta : ∀ b, wsOk b d.data = true) :
    ∀ b, wsOk b (START_RELOAD_PINNED_fmt g ca i d).data = true := by
  unfold START_RELOAD_PINNED_fmt
  simp only [String.data_append]
  apply wsOk_all_append
  · apply wsOk_all_append
    · apply wsOk_all_append
      · apply wsOk_all_append
        · apply wsOk_all_append
          · apply wsOk_all_append
            · apply wsOk_all_append
              · apply wsOk_all_append
                · apply wsOk_all_append
                  · apply wsOk_all_append
                    · exact wsOk_mono _ (by decide)
                    · exact hca
                  · exact wsOk_mono _ (by decide)
                · exact hg
              · exact wsOk_mono _ (by decide)
            · exact hca
          · exact wsOk_mono _ (by decide)
        · exact hi
      · exact wsOk_mono _ (by decide)
    · exact hdelta
  · exact wsOk_mono _ (by decide)

set_option maxRecDepth 40000 in
/-- Helper: the formatted inline start-reload template has no
comment-starting `#` when the substituted values satisfy `wsOk` in every
state. -/
theorem start_inline_fmt_wsOk (g i d : String)
    (hg : ∀ b, wsOk b g.data = true) (hi : ∀ b, wsOk b i.data = true)
    (hdelta : ∀ b, wsOk b d.data = true) :
    ∀ b, wsOk b (START_RELOAD_INLINE_fmt g i d).data = true := by
  unfold START_RELOAD_INLINE_fmt
  simp only [String.data_append]
  apply wsOk_all_append
  · apply wsOk_all_append
    · apply wsOk_all_append
      · apply wsOk_all_append
        · apply wsOk_all_append
          · apply wsOk_all_append
            · exact wsOk_mono _ (by decide)
            · exact hg
          · exact wsOk_mono _ (by decide)
        · exact hi
      · exact wsOk_mono _ (by decide)
    · exact hdelta
  · exact wsOk_mono _ (by decide)

set_option maxRecDepth 40000 in
/-- Claim C9 (amended): every shell-snippet builder returns a single
line — the result never contains a newline, for all substitution values;
and although the fragments do contain `#` characters (inside bash
parameter expansions — see the counterexample), none of them starts a
shell comment: whenever the substituted values contain no `#`, no `#`
in the result stands at the start of the line or after a space. -/
theorem claim_C9 :
    (∀ implicit_opts delta config_args : String,
      '\n' ∉ (build_reload_transform implicit_opts delta).data ∧
      '\n' ∉ (build_start_reload_pinned config_args implicit_opts delta).data ∧
      '\n' ∉ (build_start_reload_inline implicit_opts delta).data ∧
      '\n' ∉ build_tab_complete.data) ∧
    (∀ implicit_opts delta config_args : String,
      (∀ c ∈ implicit_opts.data, c ≠ '#') → (∀ c ∈ delta.data, c ≠ '#') →
      (∀ c ∈ config_args.data, c ≠ '#') →
      wsOk true (build_reload_transform implicit_opts delta).data = true ∧
      wsOk true (build_start_reload_pinned config_args implicit_opts delta).data = true ∧
      wsOk true (build_start_reload_inline implicit_opts delta).data = true ∧
      wsOk true build_tab_complete.data = true) := by
  constructor
  · intro implicit_opts delta config_args
    exact ⟨oneline_no_newline _, oneline_no_newline _, oneline_no_newline _,
      oneline_no_newline _⟩
  · intro implicit_opts delta config_args hi hdelta hca
    have hgl : ∀ b, wsOk b (oneline GLOB_EXPAND).data = true :=
      wsOk_mono _ (by decide)
    have hi' : ∀ b, wsOk b implicit_opts.data = true := wsOk_no_hash _ hi
    have hd' : ∀ b, wsOk b delta.data = true := wsOk_no_hash _ hdelta
    have hca' : ∀ b, wsOk b config_args.data = true := wsOk_no_hash _ hca
    refine ⟨oneline_wsOk _ (reload_fmt_wsOk _ _ _ hgl hi' hd' true),
      oneline_wsOk _ (start_pinned_fmt_wsOk _ _ _ _ hgl hca' hi' hd' true),
      oneline_wsOk _ (start_inline_fmt_wsOk _ _ _ hgl hi' hd' true),
      by decide⟩

set_option maxRecDepth 40000 in
/-- Claim C9 counterexample: the tab-completion fragment does contain
`#` characters (e.g. inside `$\x7bq##* \x7d`), so "no embedded comment
characters" is false read literally. -/
theorem claim_C9_counterexample : '#' ∈ build_tab_complete.data := by decide

/-- Claim C9 witness: the amended theorem applied to the concrete
substitution values rgi uses. -/
theorem claim_C9_witness :
    wsOk true (build_reload_transform "--json" "delta --grep-output-type classic").data =
      true :=
  (claim_C9.2 "--json" "delta --grep-output-type classic" "" (by decide) (by decide)
    (by decide)).1
